import Mathlib

/-!
# Event-study abnormal-return engine: shallow embedding

Shallow embedding of the event-study core of the Dissertation repository
(scripts 07, 09, 20, 42) together with proofs checking the natural-language
specification against it.

Modelling conventions:
* Calendar dates are integers (days); `timedelta(days = k)` is `± k`.
* Daily returns and prices are exact rationals; pandas `NaN` cells are
  `Option.none`, and the pandas skip-NaN semantics of `.sum()` / `.prod()` /
  `.std()` are modelled by summing, multiplying or aggregating over the
  `some` entries only.
* The 4- resp. 2-decimal rounding that the scripts apply at the very output
  boundary (`round(x, 4)`) is omitted; every theorem is about the unrounded
  quantities.
* A per-ticker return series is taken date-sorted, as the scripts make it via
  `sort_values('date')`; theorems that need the ordering carry it as a
  hypothesis.
-/

namespace Dissertation

/-- One row of the merged CRSP/market frame `crsp_market`: a calendar date,
the firm's daily return `ret` and the value-weighted market return `vwretd`
(either may be missing, as in the data). -/
structure Obs where
  date : ℤ
  ret : Option ℚ
  vwretd : Option ℚ
deriving DecidableEq

instance : Inhabited Obs := ⟨⟨0, none, none⟩⟩

/-- `crsp_market['abnormal_ret'] = (ret - vwretd) * 100`
(script 20, lines 65-66); `NaN` propagates. -/
def abnormal_ret (o : Obs) : Option ℚ :=
  match o.ret, o.vwretd with
  | some r, some v => some ((r - v) * 100)
  | _, _ => none

/-- The unscaled firm-minus-benchmark daily difference `ret - vwretd`
(`NaN` propagating); `abnormal_ret` is 100 times this. -/
def retDiff (o : Obs) : Option ℚ :=
  match o.ret, o.vwretd with
  | some r, some v => some (r - v)
  | _, _ => none

/-- pandas `Series.sum()` with its default `skipna=True`: the sum of the
non-missing entries (0 for an all-missing column). -/
def nanSum (l : List (Option ℚ)) : ℚ :=
  (l.filterMap id).sum

/-- `(1 + column).prod()` with pandas skip-NaN semantics: the product of
`1 + r` over the non-missing entries (1 for an all-missing column). -/
def compound (l : List (Option ℚ)) : ℚ :=
  ((l.filterMap id).map (fun r => 1 + r)).prod

/-- Minimum of a list of integers (`none` on the empty list). -/
def listMin : List ℤ → Option ℤ
  | [] => none
  | x :: xs => some ((listMin xs).elim x (min x))

/-- `abs(dates - target).idxmin()` / `.argmin()`: the position of the first
date whose absolute distance to `target` is minimal (0 on the empty list,
which the call sites rule out).  Both pandas `idxmin` and numpy `argmin`
return the first occurrence of the minimum. -/
def idxNearest (dates : List ℤ) (t : ℤ) : Nat :=
  match listMin (dates.map (fun d => |d - t|)) with
  | none => 0
  | some m => dates.findIdx (fun d => decide (|d - t| = m))

/-- The date the Trading Calendar Aligner picks for target `t` in the date
list `dates` (the date at the `idxNearest` position). -/
def alignedDate (dates : List ℤ) (t : ℤ) : ℤ :=
  dates.getD (idxNearest dates t) 0

/-- `index.get_indexer([target], method='nearest')[0]` (script 07,
line 36): the position of a date whose absolute distance to `target` is
minimal, where pandas breaks equidistant ties by preferring the larger
index value — the **later** date — unlike the first-occurrence semantics of
`idxmin` / `argmin`.  Implemented as the last position attaining the
minimum (0 on the empty list, which the call site rules out). -/
def idxNearestLater (dates : List ℤ) (t : ℤ) : Nat :=
  match listMin (dates.map (fun d => |d - t|)) with
  | none => 0
  | some m => dates.length - 1 - dates.reverse.findIdx (fun d => decide (|d - t| = m))

/-- The date the script-07 aligner picks for target `t` (the date at the
`idxNearestLater` position). -/
def alignedDateLater (dates : List ℤ) (t : ℤ) : ℤ :=
  dates.getD (idxNearestLater dates t) 0

/-- `ticker_data[(date >= event - 50) & (date <= event + 50)]`
(script 20, lines 75-81): the ±50-calendar-day event window. -/
def eventWindow (series : List Obs) (eventDate : ℤ) : List Obs :=
  series.filter (fun o => decide (eventDate - 50 ≤ o.date) && decide (o.date ≤ eventDate + 50))

/-- Position of the trading day aligned to the event date inside the window
(`event_pos`, script 20, lines 86-88). -/
def eventPos (w : List Obs) (eventDate : ℤ) : Nat :=
  idxNearest (w.map Obs.date) eventDate

/-- Result record of `calculate_event_returns` (script 20, lines 106-112);
all four metrics are plain numbers there, never `None`. -/
structure EventReturns where
  car_5d : ℚ
  car_30d : ℚ
  bhar_5d : ℚ
  bhar_30d : ℚ
deriving DecidableEq

/-- `event_window.iloc[event_pos : post_5d + 1]` (script 20, lines 90 and
97-102): the window slice from the event position to
`min(len(window) - 1, event_pos + 5)`, both ends included. -/
def slice5 (series : List Obs) (eventDate : ℤ) : List Obs :=
  let w := eventWindow series eventDate
  let pos := eventPos w eventDate
  (w.drop pos).take (min (w.length - 1) (pos + 5) + 1 - pos)

/-- `event_window.iloc[event_pos : post_30d + 1]` (script 20, lines 91 and
98-104). -/
def slice30 (series : List Obs) (eventDate : ℤ) : List Obs :=
  let w := eventWindow series eventDate
  let pos := eventPos w eventDate
  (w.drop pos).take (min (w.length - 1) (pos + 30) + 1 - pos)

/-- `calculate_event_returns` (script 20, lines 68-114), without the
4-decimal output rounding.  `None` models both the explicit `return None`
paths and the blanket `except: return None`. -/
def calculate_event_returns (series : List Obs) (eventDate : ℤ) : Option EventReturns :=
  if series.isEmpty then none
  else
    let w := eventWindow series eventDate
    if w.length < 10 then none
    else
      let pos := eventPos w eventDate
      if min (w.length - 1) (pos + 5) ≤ pos then none
      else
        let s5 := slice5 series eventDate
        let s30 := slice30 series eventDate
        some
          { car_5d := nanSum (s5.map abnormal_ret)
            car_30d := nanSum (s30.map abnormal_ret)
            bhar_5d := 100 * ((compound (s5.map Obs.ret) - 1) - (compound (s5.map Obs.vwretd) - 1))
            bhar_30d := 100 * ((compound (s30.map Obs.ret) - 1) - (compound (s30.map Obs.vwretd) - 1)) }

/-! ## Price-based breach-return scripts (07 and 09) -/

/-- One row of a yfinance price history: a calendar date and the `Close`
price. -/
structure PriceObs where
  date : ℤ
  close : ℚ
deriving DecidableEq

instance : Inhabited PriceObs := ⟨⟨0, 0⟩⟩

/-- Output record of the stock-data scripts (07, 09, 12): price at breach,
5- and 30-day percent returns, and the success flag. -/
structure StockReturns where
  stock_price_at_breach : Option ℚ
  return_5d_pct : Option ℚ
  return_30d_pct : Option ℚ
  has_stock_data : Bool
deriving DecidableEq

/-- The all-null failure record the scripts emit on insufficient data. -/
def noStockData : StockReturns := ⟨none, none, none, false⟩

/-- `get_breach_returns` of script 07 (lines 20-62), without the download:
`hist` is the price history the script fetches for
`[breach - 40, breach + 40]`.  `breach_idx` comes from
`get_indexer(method='nearest')` (line 36), which prefers the later date on
equidistant ties; `pre_5d_idx = max(0, breach_idx - 5)` (line 42), the post
indices are truncated with `min` (lines 46, 50), and both returns are
computed relative to `pre_5d_price` (lines 54-55). -/
def get_breach_returns_07 (hist : List PriceObs) (breachDate : ℤ) : Option StockReturns :=
  if hist.isEmpty then none
  else
    let idx := idxNearestLater (hist.map PriceObs.date) breachDate
    let breach_price := (hist.getD idx default).close
    let pre_5d_price := (hist.getD (idx - 5) default).close
    let post_5d_price := (hist.getD (min (hist.length - 1) (idx + 5)) default).close
    let post_30d_price := (hist.getD (min (hist.length - 1) (idx + 30)) default).close
    some
      { stock_price_at_breach := some breach_price
        return_5d_pct := some ((post_5d_price - pre_5d_price) / pre_5d_price * 100)
        return_30d_pct := some ((post_30d_price - pre_5d_price) / pre_5d_price * 100)
        has_stock_data := true }

/-- The ±60-calendar-day window of script 09 (lines 78-81). -/
def robustWindow (hist : List PriceObs) (breachDate : ℤ) : List PriceObs :=
  hist.filter (fun o => decide (breachDate - 60 ≤ o.date) && decide (o.date ≤ breachDate + 60))

/-- The date of the trading day script 09 aligns the breach to
(lines 92-93). -/
def robustAnchor (hist : List PriceObs) (breachDate : ℤ) : ℤ :=
  let w := robustWindow hist breachDate
  (w.getD (idxNearest (w.map PriceObs.date) breachDate) default).date

/-- `pre_data`: rows strictly before the aligned breach day
(script 09, lines 97-98). -/
def robustPre (hist : List PriceObs) (breachDate : ℤ) : List PriceObs :=
  (robustWindow hist breachDate).filter (fun o => decide (o.date < robustAnchor hist breachDate))

/-- `post_data`: rows strictly after the aligned breach day
(script 09, lines 109-110). -/
def robustPost (hist : List PriceObs) (breachDate : ℤ) : List PriceObs :=
  (robustWindow hist breachDate).filter (fun o => decide (robustAnchor hist breachDate < o.date))

/-- `get_breach_returns` of script 09 (lines 55-146), without the cache
lookup, timezone fixups and 2-decimal rounding.  The function always returns
a record; every failure path returns the all-null one.  Line 106's
`iloc[-5] if len(pre_data) >= 5 else iloc[0]` is kept verbatim even though
the guard on lines 99-105 makes the `iloc[0]` branch unreachable. -/
def get_breach_returns_robust (hist : List PriceObs) (breachDate : ℤ) : StockReturns :=
  let w := robustWindow hist breachDate
  if w.length < 10 then noStockData
  else
    let idx := idxNearest (w.map PriceObs.date) breachDate
    let pre := robustPre hist breachDate
    if pre.length < 5 then noStockData
    else
      let pre_price := if 5 ≤ pre.length then (pre.getD (pre.length - 5) default).close
                       else (pre.getD 0 default).close
      let post := robustPost hist breachDate
      if post.length < 2 then noStockData
      else
        let post_5d_price := (post.getD (min 4 (post.length - 1)) default).close
        let post_30d_price := (post.getD (min 20 (post.length - 1)) default).close
        let breach_price := (w.getD idx default).close
        { stock_price_at_breach := some breach_price
          return_5d_pct := some ((post_5d_price - pre_price) / pre_price * 100)
          return_30d_pct := some ((post_30d_price - pre_price) / pre_price * 100)
          has_stock_data := true }

/-! ## Industry-adjusted returns (script 42) -/

/-- One row of the `firm_returns` cross-section after the industry merge and
forward fill (script 42, lines 166-185): firm identifier, date, daily return
(possibly missing) and the mapped industry label. -/
structure FirmDay where
  permno : ℕ
  date : ℤ
  ret : Option ℚ
  industry : String
deriving DecidableEq

/-- The non-missing member returns of an `(industry, date)` bucket of the
cross-section — the values pandas aggregates in the groupby mean of
script 42, line 191. -/
def bucketRets (cross : List FirmDay) (ind : String) (d : ℤ) : List ℚ :=
  (cross.filter (fun f => decide (f.industry = ind) && decide (f.date = d))).filterMap FirmDay.ret

/-- The Industry-Equal-Weighted benchmark
(`firm_returns.groupby(['date', 'industry'])['ret'].mean()`, script 42,
line 191): the arithmetic mean of the non-missing member returns of the
bucket, `none` when the bucket has no non-missing member return for the date
(no group row, or an all-NaN group mean, both of which merge as missing). -/
def industry_return (cross : List FirmDay) (ind : String) (d : ℤ) : Option ℚ :=
  let rets := bucketRets cross ind d
  if rets.isEmpty then none else some (rets.sum / rets.length)

/-- `merged['abnormal_return'] = ret - industry_return` (script 42,
lines 241-244); `NaN` propagates from either side. -/
def abnormal_ind (cross : List FirmDay) (ind : String) (f : FirmDay) : Option ℚ :=
  match f.ret, industry_return cross ind f.date with
  | some r, some i => some (r - i)
  | _, _ => none

/-- The firm rows of the 30-day event window `[breach - 1, breach + 30]`
(script 42, lines 223-231).  Both the 30-day and the 5-day window start one
calendar day before the breach date. -/
def mergedRows (firmRows : List FirmDay) (permno : ℕ) (breach : ℤ) : List FirmDay :=
  firmRows.filter
    (fun f => decide (f.permno = permno) && decide (breach - 1 ≤ f.date) && decide (f.date ≤ breach + 30))

/-- The rows of the 5-day sub-window `[breach - 1, breach + 5]`
(script 42, lines 221-222 and 247-250). -/
def car5Rows (firmRows : List FirmDay) (permno : ℕ) (breach : ℤ) : List FirmDay :=
  (mergedRows firmRows permno breach).filter
    (fun f => decide (breach - 1 ≤ f.date) && decide (f.date ≤ breach + 5))

/-- `car_5d_ind_adj` and `car_30d_ind_adj` for one breach (script 42,
lines 246-261): `(abnormal_return.fillna(0) * 100).sum()` over the 5-day
rows when there are at least 3 of them, over all merged rows when there are
at least 15; `NaN` (here `none`) otherwise. -/
def car_ind_adj (firmRows : List FirmDay) (cross : List FirmDay) (permno : ℕ) (ind : String)
    (breach : ℤ) : Option ℚ × Option ℚ :=
  let merged := mergedRows firmRows permno breach
  let rows5 := car5Rows firmRows permno breach
  let car5 := if 3 ≤ rows5.length then
      some ((rows5.map (fun f => (abnormal_ind cross ind f).getD 0 * 100)).sum)
    else none
  let car30 := if 15 ≤ merged.length then
      some ((merged.map (fun f => (abnormal_ind cross ind f).getD 0 * 100)).sum)
    else none
  (car5, car30)

/-! ## Volatility (script 20, `calculate_volatility`) -/

/-- `pre_window`: rows with `breach - (window + 10) <= date <= breach - 1`
(script 20, lines 224-234). -/
def preWindow (series : List Obs) (breach : ℤ) (window : ℕ) : List Obs :=
  series.filter
    (fun o => decide (breach - ((window : ℤ) + 10) ≤ o.date) && decide (o.date ≤ breach - 1))

/-- `post_window`: rows with `breach <= date <= breach + window`
(script 20, lines 227-239). -/
def postWindow (series : List Obs) (breach : ℤ) (window : ℕ) : List Obs :=
  series.filter (fun o => decide (breach ≤ o.date) && decide (o.date ≤ breach + (window : ℤ)))

/-- Sample variance with `ddof = 1`, as pandas `.std()` squares to
(0 for fewer than two points; those cases are guarded at use sites). -/
def sampleVar (l : List ℚ) : ℚ :=
  if l.length ≤ 1 then 0
  else
    let m := l.sum / (l.length : ℚ)
    ((l.map (fun x => (x - m) ^ 2)).sum) / ((l.length : ℚ) - 1)

/-- `column.std() * np.sqrt(252) * 100` (script 20, lines 245-246): pandas
`.std()` aggregates the non-missing entries with `ddof = 1` and is `NaN`
(here `none`) when fewer than two of them exist. -/
noncomputable def annualized_vol (l : List (Option ℚ)) : Option ℝ :=
  let xs := l.filterMap id
  if xs.length < 2 then none
  else some (Real.sqrt (sampleVar xs) * Real.sqrt 252 * 100)

/-- The window-extraction and count-check part of `calculate_volatility`
(script 20, lines 218-241): the `ret` columns of the pre and post windows,
or `none` when the series is empty or either window has fewer than 10 rows. -/
def volatility_windows (series : List Obs) (breach : ℤ) (window : ℕ) :
    Option (List (Option ℚ) × List (Option ℚ)) :=
  if series.isEmpty then none
  else
    let pre := (preWindow series breach window).map Obs.ret
    let post := (postWindow series breach window).map Obs.ret
    if pre.length < 10 ∨ post.length < 10 then none else some (pre, post)

/-- Return-volatility part of the result record of `calculate_volatility`
(script 20, lines 252-258); the volume-volatility fields, which no claim
touches, are omitted. -/
structure VolResult where
  return_volatility_pre : Option ℝ
  return_volatility_post : Option ℝ
  volatility_change : Option ℝ

/-- `calculate_volatility` (script 20, lines 216-260), without the 4-decimal
output rounding: `None` exactly on the insufficient paths, and otherwise the
annualized pre/post volatilities with `volatility_change` present only when
both sides are. -/
noncomputable def calculate_volatility (series : List Obs) (breach : ℤ) (window : ℕ) :
    Option VolResult :=
  (volatility_windows series breach window).map (fun pq =>
    let vpre := annualized_vol pq.1
    let vpost := annualized_vol pq.2
    { return_volatility_pre := vpre
      return_volatility_post := vpost
      volatility_change :=
        match vpost, vpre with
        | some a, some b => some (a - b)
        | _, _ => none })

/-! ## Orchestrator (script 20, lines 119-144) -/

/-- One row of the `event_returns` list the orchestration loop builds:
metrics are `None` exactly on the failure paths. -/
structure EventRow where
  car_5d : Option ℚ
  car_30d : Option ℚ
  bhar_5d : Option ℚ
  bhar_30d : Option ℚ
  has_crsp_data : Bool
deriving DecidableEq

/-- The all-null failure row (script 20, lines 124-128 and 137-141). -/
def nullRow : EventRow := ⟨none, none, none, none, false⟩

/-- One breach record as the loop reads it: `row['Map']` and
`row['breach_date']`, either possibly missing. -/
structure BreachRecord where
  ticker : Option String
  breach_date : Option ℤ
deriving DecidableEq

/-- `crsp_data[crsp_data['ticker'] == ticker]` (script 20, line 71). -/
def crspForTicker (crsp : List (String × Obs)) (tk : String) : List Obs :=
  (crsp.filter (fun p => decide (p.1 = tk))).map Prod.snd

/-- The body of the orchestration loop for one breach record (script 20,
lines 119-141): missing ticker or date, or any failure inside
`calculate_event_returns` (including its blanket `except`), yields the
all-null row; success yields the fully populated row. -/
def processEvent (crsp : List (String × Obs)) (ev : BreachRecord) : EventRow :=
  match ev.ticker, ev.breach_date with
  | some tk, some d =>
    match calculate_event_returns (crspForTicker crsp tk) d with
    | some r => ⟨some r.car_5d, some r.car_30d, some r.bhar_5d, some r.bhar_30d, true⟩
    | none => nullRow
  | _, _ => nullRow

/-- The orchestration loop over the whole breach list (script 20,
lines 116-141): one output row per input record, in order. -/
def orchestrate (crsp : List (String × Obs)) (events : List BreachRecord) : List EventRow :=
  events.map (processEvent crsp)

/-! ## Definitions taken from the claim wording (for refutation only)

Each definition in this block follows the words of a claim, not the source,
and exists so that a counterexample can compare the two. -/

/-- From the wording of claim C1: `100 *` the sum of firm-minus-benchmark
return differences over exactly the first 5 post-event trading days,
excluding the event day at position `pos` itself. -/
def carClaimPost5 (w : List Obs) (pos : Nat) : ℚ :=
  100 * nanSum (((w.drop (pos + 1)).take 5).map retDiff)

/-- From the wording of claim C2: the 5-day buy-and-hold percent price
return accrued from the aligned event day itself (not from a pre-window
base price); the alignment is the one script 07 uses. -/
def eventAnchoredReturn5 (hist : List PriceObs) (breachDate : ℤ) : Option ℚ :=
  if hist.isEmpty then none
  else
    let idx := idxNearestLater (hist.map PriceObs.date) breachDate
    let breach_price := (hist.getD idx default).close
    let post_5d_price := (hist.getD (min (hist.length - 1) (idx + 5)) default).close
    some ((post_5d_price - breach_price) / breach_price * 100)

/-- From the wording of claim C8: script 09 with the (unreachable)
earliest-available-day fallback of line 106 removed, so the pre price is
always the close exactly 5 trading days before the aligned event day. -/
def get_breach_returns_strict (hist : List PriceObs) (breachDate : ℤ) : StockReturns :=
  let w := robustWindow hist breachDate
  if w.length < 10 then noStockData
  else
    let idx := idxNearest (w.map PriceObs.date) breachDate
    let pre := robustPre hist breachDate
    if pre.length < 5 then noStockData
    else
      let pre_price := (pre.getD (pre.length - 5) default).close
      let post := robustPost hist breachDate
      if post.length < 2 then noStockData
      else
        let post_5d_price := (post.getD (min 4 (post.length - 1)) default).close
        let post_30d_price := (post.getD (min 20 (post.length - 1)) default).close
        let breach_price := (w.getD idx default).close
        { stock_price_at_breach := some breach_price
          return_5d_pct := some ((post_5d_price - pre_price) / pre_price * 100)
          return_30d_pct := some ((post_30d_price - pre_price) / pre_price * 100)
          has_stock_data := true }

/-! ## Concrete inputs used by counterexamples and witnesses -/

/-- 11 trading days 0..10 around an event on day 5; the event day has
abnormal return `+1%` (scaled to 100 by `abnormal_ret`), all other days 0. -/
def exC1 : List Obs :=
  (List.range 11).map (fun i => ⟨(i : ℤ), if i = 5 then some 1 else some 0, some 0⟩)

/-- 11 flat trading days 0..10 (all returns 0) around an event on day 5. -/
def exC1w : List Obs :=
  (List.range 11).map (fun i => ⟨(i : ℤ), some 0, some 0⟩)

/-- Price history for script 07: close 100 on days 0..4, 200 on days 5..9,
220 on day 10; the breach is day 5. -/
def exC2p : List PriceObs :=
  (List.range 11).map (fun i => ⟨(i : ℤ), if i ≤ 4 then 100 else if i ≤ 9 then 200 else 220⟩)

/-- 11 flat trading days 0..10 around an event on day 5 (witness input). -/
def exC2w : List Obs :=
  (List.range 11).map (fun i => ⟨(i : ℤ), some 0, some 0⟩)

/-- A one-firm "Technology" cross-section: firm 1 alone, trading days 0..5,
daily return `+1%` throughout. -/
def crossC3 : List FirmDay :=
  (List.range 6).map (fun i => ⟨1, (i : ℤ), some (1 / 100), "Technology"⟩)

/-- 11 flat trading days 0..10 around an event on day 5: only 5 trading
days follow the event position, fewer than `ceil(30 / 2) = 15`. -/
def exC4 : List Obs :=
  (List.range 11).map (fun i => ⟨(i : ℤ), some 0, some 0⟩)

/-- A 5-row series: its ±50-day window has fewer than 10 rows. -/
def exC4w : List Obs :=
  (List.range 5).map (fun i => ⟨(i : ℤ), some 0, some 0⟩)

/-- Firm 1's rows for claim C5: trading days 0..5 with the firm return
missing on days 2 and 3 (a two-day gap) and `+2%` elsewhere. -/
def rowsC5 : List FirmDay :=
  (List.range 6).map (fun i => ⟨1, (i : ℤ), if i = 2 ∨ i = 3 then none else some (2 / 100), "Technology"⟩)

/-- Cross-section for claim C5: firm 1's rows plus firm 2 with return 0 on
every day, so the industry benchmark is present on every date. -/
def crossC5 : List FirmDay :=
  rowsC5 ++ (List.range 6).map (fun i => ⟨2, (i : ℤ), some 0, "Technology"⟩)

/-- 11 flat trading days 0..10 around an event on day 5 (witness input for
the missing-value claim). -/
def exC5w : List Obs :=
  (List.range 11).map (fun i => ⟨(i : ℤ), some 0, some 0⟩)

/-- 20 flat trading days −10..9 around a breach on day 0: exactly 10 rows
in the pre window and 10 in the post window. -/
def exC6 : List Obs :=
  (List.range 20).map (fun i => ⟨(i : ℤ) - 10, some 0, some 0⟩)

/-- 19 flat trading days −10..8 around a breach on day 0: exactly 10 rows
in the pre window but only 9 in the post window. -/
def exC6n : List Obs :=
  (List.range 19).map (fun i => ⟨(i : ℤ) - 10, some 0, some 0⟩)

/-- Trading dates 0, 2, 4 with target 3: days 2 and 4 are equidistant. -/
def exC7 : List ℤ := [0, 2, 4]

/-- Price history for the C8 counterexample on script 07: 11 trading days
0..10 with the breach on day 2, so only 2 observations precede the aligned
event day; close 100 on days 0..6 and 150 from day 7 on. -/
def exC8p : List PriceObs :=
  (List.range 11).map (fun i => ⟨(i : ℤ), if i ≤ 6 then 100 else 150⟩)

/-- Price history for the C8 witness on script 09: 11 trading days 0..10
with the breach on day 2, so only 2 observations precede the aligned event
day. -/
def exC8w : List PriceObs :=
  (List.range 11).map (fun i => ⟨(i : ℤ), 100⟩)

/-- A two-event batch: the first record has no ticker, the second maps to
ticker "A". -/
def eventsC9 : List BreachRecord := [⟨none, some 5⟩, ⟨some "A", some 5⟩]

/-- CRSP rows for ticker "A": 11 flat trading days 0..10. -/
def crspC9 : List (String × Obs) :=
  (List.range 11).map (fun i => ("A", ⟨(i : ℤ), some 0, some 0⟩))

/-- 3 trading days −1, 0, 1 around a breach on day 0 (witness input for the
window-disjointness claim). -/
def exC10 : List Obs := [⟨-1, some 0, some 0⟩, ⟨0, some 0, some 0⟩, ⟨1, some 0, some 0⟩]

/-! ## Helper lemmas -/

theorem listMin_eq_none_iff (l : List ℤ) : listMin l = none ↔ l = [] := by
  cases l <;> simp [listMin]

theorem listMin_cons (a : ℤ) (l : List ℤ) (m : ℤ) (h : listMin (a :: l) = some m) :
    (listMin l).elim a (min a) = m := by
  simpa [listMin] using h

theorem listMin_le (l : List ℤ) : ∀ m, listMin l = some m → ∀ x ∈ l, m ≤ x := by
  induction l with
  | nil => intro m h; simp [listMin] at h
  | cons a l ih =>
    intro m h x hx
    have h2 := listMin_cons a l m h
    cases hl : listMin l with
    | none =>
      have hl0 : l = [] := (listMin_eq_none_iff l).mp hl
      subst hl0
      rw [hl] at h2
      simp [Option.elim] at h2
      rcases List.mem_cons.mp hx with rfl | hx2
      · omega
      · simp at hx2
    | some m2 =>
      rw [hl] at h2
      simp [Option.elim] at h2
      rcases List.mem_cons.mp hx with rfl | hx2
      · omega
      · have := ih m2 hl x hx2
        omega

theorem listMin_mem (l : List ℤ) : ∀ m, listMin l = some m → m ∈ l := by
  induction l with
  | nil => intro m h; simp [listMin] at h
  | cons a l ih =>
    intro m h
    have h2 := listMin_cons a l m h
    cases hl : listMin l with
    | none =>
      rw [hl] at h2
      simp [Option.elim] at h2
      simp [h2]
    | some m2 =>
      rw [hl] at h2
      simp [Option.elim] at h2
      rcases min_choice a m2 with hc | hc
      · rw [hc] at h2
        simp [h2]
      · rw [hc] at h2
        exact List.mem_cons_of_mem a (h2 ▸ ih m2 hl)

theorem idxNearest_eq_findIdx (dates : List ℤ) (t m : ℤ)
    (h : listMin (dates.map (fun d => |d - t|)) = some m) :
    idxNearest dates t = dates.findIdx (fun d => decide (|d - t| = m)) := by
  unfold idxNearest
  rw [h]

theorem listMin_map_isSome (dates : List ℤ) (t : ℤ) (hne : dates ≠ []) :
    ∃ m, listMin (dates.map (fun d => |d - t|)) = some m := by
  cases hl : listMin (dates.map (fun d => |d - t|)) with
  | none =>
    have := (listMin_eq_none_iff _).mp hl
    simp at this
    exact absurd this hne
  | some m => exact ⟨m, rfl⟩

theorem idxNearest_lt_length (dates : List ℤ) (t : ℤ) (hne : dates ≠ []) :
    idxNearest dates t < dates.length := by
  obtain ⟨m, hl⟩ := listMin_map_isSome dates t hne
  rw [idxNearest_eq_findIdx dates t m hl]
  have hmem := listMin_mem _ _ hl
  rcases List.mem_map.mp hmem with ⟨d, hd, hfd⟩
  exact List.findIdx_lt_length_of_exists ⟨d, hd, by simp [hfd]⟩

theorem idxNearest_min (dates : List ℤ) (t : ℤ) (hne : dates ≠ []) :
    ∀ d ∈ dates, |dates.getD (idxNearest dates t) 0 - t| ≤ |d - t| := by
  intro d hd
  obtain ⟨m, hl⟩ := listMin_map_isSome dates t hne
  have hlt := idxNearest_lt_length dates t hne
  have heq := idxNearest_eq_findIdx dates t m hl
  rw [heq] at hlt ⊢
  have hp := List.findIdx_getElem (w := hlt)
  simp only [decide_eq_true_eq] at hp
  have hle : m ≤ |d - t| :=
    listMin_le _ _ hl _ (List.mem_map.mpr ⟨d, hd, rfl⟩)
  rw [List.getD_eq_getElem dates 0 hlt, hp]
  exact hle

theorem idxNearest_first (dates : List ℤ) (t : ℤ) (j : ℕ) (hj : j < dates.length)
    (heq : |dates[j] - t| = |dates.getD (idxNearest dates t) 0 - t|) :
    idxNearest dates t ≤ j := by
  have hne : dates ≠ [] := by
    intro h0
    subst h0
    simp at hj
  by_contra hcon
  push_neg at hcon
  obtain ⟨m, hl⟩ := listMin_map_isSome dates t hne
  have hlt := idxNearest_lt_length dates t hne
  have hfd := idxNearest_eq_findIdx dates t m hl
  rw [hfd] at hlt hcon heq
  have hp := List.findIdx_getElem (w := hlt)
  simp only [decide_eq_true_eq] at hp
  have hnot := List.not_of_lt_findIdx hcon
  simp only [decide_eq_false_iff_not] at hnot
  rw [List.getD_eq_getElem dates 0 hlt, hp] at heq
  exact hnot heq

theorem findIdx_le_of_getElem (p : ℤ → Bool) (l : List ℤ) (i : ℕ) (hi : i < l.length)
    (hp : p l[i] = true) : l.findIdx p ≤ i := by
  by_contra hcon
  push_neg at hcon
  have := List.not_of_lt_findIdx hcon
  rw [hp] at this
  exact Bool.noConfusion this

theorem idxNearestLater_eq (dates : List ℤ) (t m : ℤ)
    (h : listMin (dates.map (fun d => |d - t|)) = some m) :
    idxNearestLater dates t =
      dates.length - 1 - dates.reverse.findIdx (fun d => decide (|d - t| = m)) := by
  unfold idxNearestLater
  rw [h]

theorem revFindIdx_lt_length (dates : List ℤ) (t m : ℤ)
    (h : listMin (dates.map (fun d => |d - t|)) = some m) :
    dates.reverse.findIdx (fun d => decide (|d - t| = m)) < dates.length := by
  have hmem := listMin_mem _ _ h
  rcases List.mem_map.mp hmem with ⟨d, hd, hfd⟩
  have h2 : ∃ x ∈ dates.reverse, (fun d => decide (|d - t| = m)) x = true :=
    ⟨d, List.mem_reverse.mpr hd, by simp [hfd]⟩
  have := List.findIdx_lt_length_of_exists h2
  simpa using this

theorem idxNearestLater_lt_length (dates : List ℤ) (t : ℤ) (hne : dates ≠ []) :
    idxNearestLater dates t < dates.length := by
  obtain ⟨m, hl⟩ := listMin_map_isSome dates t hne
  rw [idxNearestLater_eq dates t m hl]
  have hj := revFindIdx_lt_length dates t m hl
  have hlen : 0 < dates.length := List.length_pos.mpr hne
  omega

theorem idxNearestLater_min (dates : List ℤ) (t : ℤ) (hne : dates ≠ []) :
    ∀ d ∈ dates, |dates.getD (idxNearestLater dates t) 0 - t| ≤ |d - t| := by
  intro d hd
  obtain ⟨m, hl⟩ := listMin_map_isSome dates t hne
  have hj := revFindIdx_lt_length dates t m hl
  have hjr : dates.reverse.findIdx (fun d => decide (|d - t| = m)) < dates.reverse.length := by
    simpa using hj
  have hp := List.findIdx_getElem (w := hjr)
  rw [List.getElem_reverse] at hp
  simp only [decide_eq_true_eq, List.length_reverse] at hp
  have hlt := idxNearestLater_lt_length dates t hne
  rw [idxNearestLater_eq dates t m hl] at hlt ⊢
  rw [List.getD_eq_getElem dates 0 hlt, hp]
  exact listMin_le _ _ hl _ (List.mem_map.mpr ⟨d, hd, rfl⟩)

theorem idxNearestLater_last (dates : List ℤ) (t : ℤ) (j : ℕ) (hj : j < dates.length)
    (heq : |dates[j] - t| = |dates.getD (idxNearestLater dates t) 0 - t|) :
    j ≤ idxNearestLater dates t := by
  have hne : dates ≠ [] := by
    intro h0
    subst h0
    simp at hj
  obtain ⟨m, hl⟩ := listMin_map_isSome dates t hne
  have hjlt := revFindIdx_lt_length dates t m hl
  have hjr : dates.reverse.findIdx (fun d => decide (|d - t| = m)) < dates.reverse.length := by
    simpa using hjlt
  have hp := List.findIdx_getElem (w := hjr)
  rw [List.getElem_reverse] at hp
  simp only [decide_eq_true_eq, List.length_reverse] at hp
  have hlt := idxNearestLater_lt_length dates t hne
  rw [idxNearestLater_eq dates t m hl] at hlt heq ⊢
  rw [List.getD_eq_getElem dates 0 hlt, hp] at heq
  have hle := findIdx_le_of_getElem (fun d => decide (|d - t| = m)) dates.reverse
    (dates.length - 1 - j) (by simp; omega)
    (by
      have hj2 : dates.length - 1 - (dates.length - 1 - j) = j := by omega
      simp only [List.getElem_reverse, hj2, decide_eq_true_eq]
      exact heq)
  omega

theorem nanSum_cons (x : Option ℚ) (l : List (Option ℚ)) :
    nanSum (x :: l) = x.getD 0 + nanSum l := by
  cases x <;> simp [nanSum]

theorem nanSum_map_abnormal (l : List Obs) :
    nanSum (l.map abnormal_ret) = 100 * nanSum (l.map retDiff) := by
  induction l with
  | nil => simp [nanSum]
  | cons o l ih =>
    simp only [List.map_cons, nanSum_cons, ih]
    rcases ho : o.ret with _ | r <;> rcases hv : o.vwretd with _ | v <;>
      simp [abnormal_ret, retDiff, ho, hv] <;> ring

theorem calculate_event_returns_some (series : List Obs) (t : ℤ) (r : EventReturns)
    (h : calculate_event_returns series t = some r) :
    r = { car_5d := nanSum ((slice5 series t).map abnormal_ret)
          car_30d := nanSum ((slice30 series t).map abnormal_ret)
          bhar_5d := 100 * ((compound ((slice5 series t).map Obs.ret) - 1) -
            (compound ((slice5 series t).map Obs.vwretd) - 1))
          bhar_30d := 100 * ((compound ((slice30 series t).map Obs.ret) - 1) -
            (compound ((slice30 series t).map Obs.vwretd) - 1)) } ∧
    10 ≤ (eventWindow series t).length ∧
    eventPos (eventWindow series t) t + 2 ≤ (eventWindow series t).length := by
  simp only [calculate_event_returns] at h
  split_ifs at h with h1 h2 h3 <;> try exact Option.noConfusion h
  injection h with h4
  refine ⟨h4.symm, by omega, ?_⟩
  rw [Nat.not_le] at h3
  omega

/-! ## C7: Trading Calendar Aligner -/

/-- The first-occurrence aligner sites (`abs(dates - target).idxmin()` of
script 20, `argmin` of scripts 09 and 12): for every non-empty, date-sorted
series they return a trading day of the series whose date has the smallest
absolute difference to the target date, the earlier one on equidistant
ties. -/
theorem aligner_nearest_tie_earlier (dates : List ℤ) (t : ℤ) (hne : dates ≠ [])
    (hs : dates.Sorted (· ≤ ·)) :
    alignedDate dates t ∈ dates ∧
    (∀ d ∈ dates, |alignedDate dates t - t| ≤ |d - t|) ∧
    (∀ d ∈ dates, |d - t| = |alignedDate dates t - t| → alignedDate dates t ≤ d) := by
  have hlt := idxNearest_lt_length dates t hne
  refine ⟨?_, idxNearest_min dates t hne, ?_⟩
  · unfold alignedDate
    rw [List.getD_eq_getElem dates 0 hlt]
    exact List.getElem_mem _
  · intro d hd heq
    rcases List.mem_iff_getElem.mp hd with ⟨j, hj, rfl⟩
    have hle := idxNearest_first dates t j hj (by simpa [alignedDate] using heq)
    unfold alignedDate
    rw [List.getD_eq_getElem dates 0 hlt]
    rcases eq_or_lt_of_le hle with heq2 | hlt2
    · exact le_of_eq (by congr 1)
    · have := hs.rel_get_of_lt (a := ⟨idxNearest dates t, hlt⟩) (b := ⟨j, hj⟩) hlt2
      simpa using this

/-- Counterexample to C7 as stated: at the aligner site of script 07
(`get_indexer(method='nearest')`, embedded as `alignedDateLater`), on the
series `[0, 2, 4]` with target 3 the days 2 and 4 are exactly equidistant
and the aligner returns the **later** day 4, not the earlier day 2. -/
theorem aligner_tie_later_cx :
    (2 : ℤ) ∈ exC7 ∧
    alignedDateLater exC7 3 = 4 ∧
    |(2 : ℤ) - 3| = |alignedDateLater exC7 3 - 3| ∧
    ¬alignedDateLater exC7 3 ≤ 2 := by
  decide

/-- **C7** (corrected): for every non-empty, date-sorted return series and
target date, every aligner site returns a trading day of the series whose
date has the smallest absolute difference to the target date; on
equidistant ties the `idxmin` / `argmin` sites (scripts 20, 09, 12,
first-occurrence) deterministically return the **earlier** of the two,
while the `get_indexer(method='nearest')` site (script 07) deterministically
returns the **later**. -/
theorem aligner_tie_break_per_site (dates : List ℤ) (t : ℤ) (hne : dates ≠ [])
    (hs : dates.Sorted (· ≤ ·)) :
    (alignedDate dates t ∈ dates ∧
      (∀ d ∈ dates, |alignedDate dates t - t| ≤ |d - t|) ∧
      (∀ d ∈ dates, |d - t| = |alignedDate dates t - t| → alignedDate dates t ≤ d)) ∧
    (alignedDateLater dates t ∈ dates ∧
      (∀ d ∈ dates, |alignedDateLater dates t - t| ≤ |d - t|) ∧
      (∀ d ∈ dates, |d - t| = |alignedDateLater dates t - t| → d ≤ alignedDateLater dates t)) := by
  have hlt := idxNearestLater_lt_length dates t hne
  refine ⟨aligner_nearest_tie_earlier dates t hne hs, ?_, idxNearestLater_min dates t hne, ?_⟩
  · unfold alignedDateLater
    rw [List.getD_eq_getElem dates 0 hlt]
    exact List.getElem_mem _
  · intro d hd heq
    rcases List.mem_iff_getElem.mp hd with ⟨j, hj, rfl⟩
    have hle := idxNearestLater_last dates t j hj (by simpa [alignedDateLater] using heq)
    unfold alignedDateLater
    rw [List.getD_eq_getElem dates 0 hlt]
    rcases eq_or_lt_of_le hle with heq2 | hlt2
    · exact le_of_eq (by congr 1)
    · have := hs.rel_get_of_lt (a := ⟨j, hj⟩) (b := ⟨idxNearestLater dates t, hlt⟩) hlt2
      simpa using this

/-- Witness for C7 at the series `[0, 2, 4]` with target 3: days 2 and 4
are equidistant; the first-occurrence sites pick the earlier day 2 while
the script-07 site picks the later day 4. -/
theorem aligner_tie_break_per_site_witness :
    alignedDate exC7 3 = 2 ∧ alignedDateLater exC7 3 = 4 ∧
    alignedDate exC7 3 ≤ 4 ∧ (2 : ℤ) ≤ alignedDateLater exC7 3 :=
  ⟨by decide, by decide,
    (aligner_tie_break_per_site exC7 3 (by decide) (by decide)).1.2.2 4 (by decide) (by decide),
    (aligner_tie_break_per_site exC7 3 (by decide) (by decide)).2.2.2 2 (by decide) (by decide)⟩

/-! ## C10: the volatility windows are disjoint -/

/-- **C10** (confirmed): in `calculate_volatility` the pre-event window
holds only dates at most one calendar day before the breach date, the
post-event window starts on the breach date itself, the two windows are
disjoint, and the breach day's own observation falls in the post window and
never in the pre window. -/
theorem volatility_pre_post_disjoint (series : List Obs) (b : ℤ) (w : ℕ) (o : Obs) :
    (o ∈ preWindow series b w → o.date ≤ b - 1) ∧
    (o ∈ postWindow series b w → b ≤ o.date) ∧
    ¬(o ∈ preWindow series b w ∧ o ∈ postWindow series b w) ∧
    (o ∈ series → o.date = b → o ∈ postWindow series b w ∧ o ∉ preWindow series b w) := by
  unfold preWindow postWindow
  simp only [List.mem_filter, Bool.and_eq_true, decide_eq_true_eq]
  refine ⟨fun h => h.2.2, fun h => h.2.1, fun h => ?_, fun hs hd => ?_⟩
  · have h1 := h.1.2.2
    have h2 := h.2.2.1
    omega
  · refine ⟨⟨hs, by omega, by omega⟩, fun h => ?_⟩
    have := h.2.2
    omega

/-- Witness for C10: on the series with days −1, 0, 1 and breach day 0, the
breach-day observation lies in the post window and not in the pre window. -/
theorem volatility_pre_post_disjoint_witness :
    (⟨0, some 0, some 0⟩ : Obs) ∈ postWindow exC10 0 30 ∧
    (⟨0, some 0, some 0⟩ : Obs) ∉ preWindow exC10 0 30 :=
  (volatility_pre_post_disjoint exC10 0 30 ⟨0, some 0, some 0⟩).2.2.2 (by decide) (by decide)

/-! ## C9: per-event failure isolation in the orchestration loop -/

/-- **C9** (confirmed): the orchestration loop yields exactly one result
row per breach record, each row depending only on its own record, and every
row is either the all-null failure row (`has_crsp_data = false`, every
metric `None`) or a fully populated success row (`has_crsp_data = true`,
every metric present) — never partially populated. -/
theorem orchestrator_isolates_failures (crsp : List (String × Obs)) (events : List BreachRecord) :
    (orchestrate crsp events).length = events.length ∧
    (∀ i : ℕ, (orchestrate crsp events).get? i = (events.get? i).map (processEvent crsp)) ∧
    (∀ row ∈ orchestrate crsp events,
      row = nullRow ∨
      (row.has_crsp_data = true ∧ row.car_5d.isSome ∧ row.car_30d.isSome ∧
        row.bhar_5d.isSome ∧ row.bhar_30d.isSome)) := by
  refine ⟨by simp [orchestrate], fun i => by simp [orchestrate], fun row hrow => ?_⟩
  rcases List.mem_map.mp hrow with ⟨ev, hev, rfl⟩
  obtain ⟨tk, bd⟩ := ev
  cases tk with
  | none => left; rfl
  | some tk =>
    cases bd with
    | none => left; rfl
    | some d =>
      cases hcer : calculate_event_returns (crspForTicker crsp tk) d with
      | none => left; simp [processEvent, hcer]
      | some r => right; simp [processEvent, hcer]

/-- Witness for C9 on a two-record batch whose first record has no ticker:
row 0 is produced from record 0 alone, and the all-null row satisfies the
all-or-nothing disjunction. -/
theorem orchestrator_isolates_failures_witness :
    (orchestrate crspC9 eventsC9).get? 0 = (eventsC9.get? 0).map (processEvent crspC9) ∧
    (nullRow = nullRow ∨
      (nullRow.has_crsp_data = true ∧ nullRow.car_5d.isSome ∧ nullRow.car_30d.isSome ∧
        nullRow.bhar_5d.isSome ∧ nullRow.bhar_30d.isSome)) :=
  ⟨(orchestrator_isolates_failures crspC9 eventsC9).2.1 0,
    (orchestrator_isolates_failures crspC9 eventsC9).2.2 nullRow (by decide)⟩

/-! ## C6: volatility formula, joint insufficiency and boundary -/

/-- **C6** (confirmed): `calculate_volatility` is insufficient — returning
`None`, hence both sides null — exactly when the pre window or the post
window has fewer than `min_obs = 10` rows (so with exactly 9 post rows the
result is null and with 10 it is produced), and on success each side is the
annualized volatility `stdev * sqrt(252) * 100` of its window's returns,
with `volatility_change = vol_post - vol_pre` exactly when both sides are
present. -/
theorem volatility_all_or_nothing (series : List Obs) (b : ℤ) (w : ℕ) :
    (calculate_volatility series b w = none ↔
      (preWindow series b w).length < 10 ∨ (postWindow series b w).length < 10) ∧
    (∀ r, calculate_volatility series b w = some r →
      r.return_volatility_pre = annualized_vol ((preWindow series b w).map Obs.ret) ∧
      r.return_volatility_post = annualized_vol ((postWindow series b w).map Obs.ret) ∧
      (∀ a c : ℝ, r.return_volatility_post = some a → r.return_volatility_pre = some c →
        r.volatility_change = some (a - c)) ∧
      ((r.return_volatility_post = none ∨ r.return_volatility_pre = none) →
        r.volatility_change = none)) := by
  have hw : volatility_windows series b w = none ↔
      (preWindow series b w).length < 10 ∨ (postWindow series b w).length < 10 := by
    cases series with
    | nil => simp [volatility_windows, preWindow, postWindow]
    | cons a l =>
      simp only [volatility_windows, List.isEmpty_cons, if_false, Bool.false_eq_true,
        List.length_map]
      split <;> simp_all
  constructor
  · unfold calculate_volatility
    rw [Option.map_eq_none']
    exact hw
  · intro r hr
    unfold calculate_volatility at hr
    cases hv : volatility_windows series b w with
    | none => rw [hv] at hr; simp at hr
    | some pq =>
      rw [hv] at hr
      simp only [Option.map, Option.some.injEq] at hr
      obtain ⟨p, q⟩ := pq
      have hpq : p = (preWindow series b w).map Obs.ret ∧
          q = (postWindow series b w).map Obs.ret := by
        cases series with
        | nil => simp [volatility_windows] at hv
        | cons a l =>
          simp only [volatility_windows, List.isEmpty_cons, if_false, Bool.false_eq_true] at hv
          split at hv
          · simp at hv
          · simp only [Option.some.injEq, Prod.mk.injEq] at hv
            exact ⟨hv.1.symm, hv.2.symm⟩
      obtain ⟨hp, hq⟩ := hpq
      subst hp hq
      subst hr
      refine ⟨rfl, rfl, ?_, ?_⟩
      · intro a c ha hc
        simp only at ha hc
        rw [ha, hc]
      · intro hor
        rcases hor with h0 | h0 <;> simp only at h0 <;> rw [h0] <;>
          cases annualized_vol ((preWindow series b w).map Obs.ret) <;>
            cases annualized_vol ((postWindow series b w).map Obs.ret) <;> simp_all

/-- Witness for C6: with only 9 rows in the post window (exactly
`min_obs - 1`) the whole volatility result is null. -/
theorem volatility_all_or_nothing_witness :
    calculate_volatility exC6n 0 30 = none :=
  (volatility_all_or_nothing exC6n 0 30).1.mpr (Or.inr (by decide))

/-! ## C1: the 5-day CAR window -/

/-- Counterexample to C1 as stated: on 11 flat trading days with a `+1%`
abnormal return on the event day itself, `calculate_event_returns` reports
`car_5d = 100` (a 6-day sum that includes the event day), while the claim's
value — 100 times the sum over exactly the first 5 post-event trading days —
is 0. -/
theorem car5_post_only_cx :
    (calculate_event_returns exC1 5).map EventReturns.car_5d = some 100 ∧
    carClaimPost5 (eventWindow exC1 5) (eventPos (eventWindow exC1 5) 5) = 0 ∧
    (calculate_event_returns exC1 5).map EventReturns.car_5d ≠
      some (carClaimPost5 (eventWindow exC1 5) (eventPos (eventWindow exC1 5) 5)) := by
  have h1 : (calculate_event_returns exC1 5).map EventReturns.car_5d = some 100 := by
    with_unfolding_all rfl
  have h2 : carClaimPost5 (eventWindow exC1 5) (eventPos (eventWindow exC1 5) 5) = 0 := by
    with_unfolding_all rfl
  refine ⟨h1, h2, ?_⟩
  rw [h1, h2]
  simp only [ne_eq, Option.some.injEq]
  norm_num

/-- **C1** (corrected): when the 5-day horizon is untruncated, `car_5d`
equals 100 times the sum of the firm-minus-benchmark daily differences over
the **6** trading days at positions `event_pos .. event_pos + 5` of the
aligned window — the event day plus the first 5 post-event trading days —
and that slice is exactly the first 6 entries of the slice used for
`car_30d`. -/
theorem car5_six_day_sum (series : List Obs) (t : ℤ) (r : EventReturns)
    (h : calculate_event_returns series t = some r)
    (h5 : eventPos (eventWindow series t) t + 5 + 1 ≤ (eventWindow series t).length) :
    r.car_5d = 100 * nanSum ((slice5 series t).map retDiff) ∧
    (slice5 series t).length = 6 ∧
    slice5 series t = (slice30 series t).take 6 := by
  obtain ⟨hr, h10, hpos⟩ := calculate_event_returns_some series t r h
  subst hr
  refine ⟨nanSum_map_abnormal _, ?_, ?_⟩
  · simp only [slice5, List.length_take, List.length_drop]
    omega
  · simp only [slice5, slice30, List.take_take]
    congr 1
    omega

/-- Witness for C1 at the all-zero 11-day series with the event on day 5:
the horizon is untruncated and all three conjuncts are discharged. -/
theorem car5_six_day_sum_witness :
    (⟨0, 0, 0, 0⟩ : EventReturns).car_5d = 100 * nanSum ((slice5 exC1w 5).map retDiff) ∧
    (slice5 exC1w 5).length = 6 ∧
    slice5 exC1w 5 = (slice30 exC1w 5).take 6 :=
  car5_six_day_sum exC1w 5 ⟨0, 0, 0, 0⟩ (by with_unfolding_all rfl) (by decide)

/-! ## C2: BHAR compounding and event anchoring -/

/-- Counterexample to C2 as stated: the per-event return computation of
script 07 is anchored at the close five trading days before the aligned
event day, not at the event day.  On `exC2p` (close 100 before the event,
200 from the event day, 220 on the last day) it reports a 5-day return of
120%, while the event-anchored 5-day return is 10%. -/
theorem bhar_event_anchor_cx :
    (get_breach_returns_07 exC2p 5).map StockReturns.return_5d_pct = some (some 120) ∧
    eventAnchoredReturn5 exC2p 5 = some 10 ∧
    (get_breach_returns_07 exC2p 5).map StockReturns.return_5d_pct ≠
      some (eventAnchoredReturn5 exC2p 5) := by
  have h1 : (get_breach_returns_07 exC2p 5).map StockReturns.return_5d_pct = some (some 120) := by
    with_unfolding_all rfl
  have h2 : eventAnchoredReturn5 exC2p 5 = some 10 := by
    with_unfolding_all rfl
  refine ⟨h1, h2, ?_⟩
  rw [h1, h2]
  simp only [ne_eq, Option.some.injEq]
  norm_num

/-- **C2** (corrected): in `calculate_event_returns`, `bhar_5d` and
`bhar_30d` equal 100 times the difference between the compounded firm
return and the compounded benchmark return (geometric, `Π(1+r) - 1` on each
side), and both slices begin exactly at the aligned event position; the raw
price-return scripts (07/09/12) instead anchor at the close five trading
days before the aligned event day (see the counterexample). -/
theorem bhar_geometric_event_anchored (series : List Obs) (t : ℤ) (r : EventReturns)
    (h : calculate_event_returns series t = some r) :
    r.bhar_5d = 100 * (compound ((slice5 series t).map Obs.ret) -
      compound ((slice5 series t).map Obs.vwretd)) ∧
    r.bhar_30d = 100 * (compound ((slice30 series t).map Obs.ret) -
      compound ((slice30 series t).map Obs.vwretd)) ∧
    (slice5 series t).head? = (eventWindow series t)[eventPos (eventWindow series t) t]? ∧
    (slice30 series t).head? = (eventWindow series t)[eventPos (eventWindow series t) t]? := by
  obtain ⟨hr, h10, hpos⟩ := calculate_event_returns_some series t r h
  refine ⟨?_, ?_, ?_, ?_⟩
  · have e5 : r.bhar_5d = 100 * ((compound ((slice5 series t).map Obs.ret) - 1) -
        (compound ((slice5 series t).map Obs.vwretd) - 1)) := by rw [hr]
    rw [e5]; ring
  · have e30 : r.bhar_30d = 100 * ((compound ((slice30 series t).map Obs.ret) - 1) -
        (compound ((slice30 series t).map Obs.vwretd) - 1)) := by rw [hr]
    rw [e30]; ring
  · simp only [slice5]
    rw [List.head?_eq_getElem?, List.getElem?_take_of_lt (by omega), List.getElem?_drop,
      Nat.add_zero]
  · simp only [slice30]
    rw [List.head?_eq_getElem?, List.getElem?_take_of_lt (by omega), List.getElem?_drop,
      Nat.add_zero]

/-- Witness for C2 at the all-zero 11-day series with the event on day 5. -/
theorem bhar_geometric_event_anchored_witness :
    (⟨0, 0, 0, 0⟩ : EventReturns).bhar_5d = 100 * (compound ((slice5 exC2w 5).map Obs.ret) -
      compound ((slice5 exC2w 5).map Obs.vwretd)) ∧
    (⟨0, 0, 0, 0⟩ : EventReturns).bhar_30d = 100 * (compound ((slice30 exC2w 5).map Obs.ret) -
      compound ((slice30 exC2w 5).map Obs.vwretd)) ∧
    (slice5 exC2w 5).head? = (eventWindow exC2w 5)[eventPos (eventWindow exC2w 5) 5]? ∧
    (slice30 exC2w 5).head? = (eventWindow exC2w 5)[eventPos (eventWindow exC2w 5) 5]? :=
  bhar_geometric_event_anchored exC2w 5 ⟨0, 0, 0, 0⟩ (by with_unfolding_all rfl)

/-! ## C4: post-window insufficiency handling -/

/-- Counterexample to C4 as stated: on `exC4` only 5 trading days follow
the event position — fewer than `ceil(30/2) = 15` — yet
`calculate_event_returns` still populates `car_30d` from the truncated
window instead of marking the 30-day horizon insufficient. -/
theorem horizon_independence_cx :
    (eventWindow exC4 5).length - 1 - eventPos (eventWindow exC4 5) 5 = 5 ∧
    (calculate_event_returns exC4 5).map EventReturns.car_30d = some 0 :=
  ⟨by decide, by with_unfolding_all rfl⟩

/-- **C4** (corrected): `calculate_event_returns` applies one single
post-window check — it returns `None` (both horizons insufficient at once)
exactly when the ±50-day window has fewer than 10 rows or no trading day
follows the event position; otherwise both horizons are computed, each
slice ending at the trading day at offset
`min(h, last_available_offset)` after the event position, with no
`ceil(h/2)` per-horizon threshold. -/
theorem post_window_single_check (series : List Obs) (t : ℤ) :
    (calculate_event_returns series t = none ↔
      (eventWindow series t).length < 10 ∨
      (eventWindow series t).length ≤ eventPos (eventWindow series t) t + 1) ∧
    (∀ r, calculate_event_returns series t = some r →
      (slice5 series t).getLast? =
        (eventWindow series t)[min (eventPos (eventWindow series t) t + 5)
          ((eventWindow series t).length - 1)]? ∧
      (slice30 series t).getLast? =
        (eventWindow series t)[min (eventPos (eventWindow series t) t + 30)
          ((eventWindow series t).length - 1)]?) := by
  constructor
  · constructor
    · intro hn
      simp only [calculate_event_returns] at hn
      split_ifs at hn with h1 h2 h3
      · have hse : series = [] := by simpa [List.isEmpty_iff] using h1
        subst hse
        left
        simp [eventWindow]
      · left; exact h2
      · right; omega
    · intro hcond
      simp only [calculate_event_returns]
      split_ifs with h1 h2 h3
      · rfl
      · rfl
      · rfl
      · exfalso
        rcases hcond with hc | hc <;> omega
  · intro r hr
    obtain ⟨-, h10, hpos⟩ := calculate_event_returns_some series t r hr
    constructor
    · simp only [slice5]
      rw [List.getLast?_eq_getElem?, List.length_take, List.length_drop,
        List.getElem?_take_of_lt (by omega), List.getElem?_drop]
      congr 1
      omega
    · simp only [slice30]
      rw [List.getLast?_eq_getElem?, List.length_take, List.length_drop,
        List.getElem?_take_of_lt (by omega), List.getElem?_drop]
      congr 1
      omega

/-- Witness for C4: the 5-row series `exC4w` trips the single check (both
horizons null at once), while on `exC4` both slices end at offset
`min(h, last_available_offset)`. -/
theorem post_window_single_check_witness :
    calculate_event_returns exC4w 5 = none ∧
    ((slice5 exC4 5).getLast? = (eventWindow exC4 5)[min (eventPos (eventWindow exC4 5) 5 + 5)
        ((eventWindow exC4 5).length - 1)]? ∧
      (slice30 exC4 5).getLast? = (eventWindow exC4 5)[min (eventPos (eventWindow exC4 5) 5 + 30)
        ((eventWindow exC4 5).length - 1)]?) :=
  ⟨(post_window_single_check exC4w 5).1.mpr (Or.inl (by decide)),
    (post_window_single_check exC4 5).2 ⟨0, 0, 0, 0⟩ (by with_unfolding_all rfl)⟩

/-! ## C5: missing-value handling inside the CAR window -/

theorem fill_zero_sum (g : FirmDay → Option ℚ) (l : List FirmDay) :
    (l.map (fun f => (g f).getD 0 * 100)).sum = 100 * (l.filterMap g).sum := by
  induction l with
  | nil => simp
  | cons f l ih =>
    cases hg : g f <;> simp [List.filterMap_cons, hg, ih] <;> ring

/-- Counterexample to C5 as stated: in `rowsC5` the firm return is missing
on days 2 and 3 (a two-trading-day gap) while the industry benchmark is
present on both days, yet `car_5d_ind_adj` substitutes 0 for both missing
days and still produces a value (4) instead of escalating to the
insufficient-data outcome. -/
theorem missing_fill_cx :
    (rowsC5.filter (fun f => decide (f.date = 2))).map FirmDay.ret = [none] ∧
    (rowsC5.filter (fun f => decide (f.date = 3))).map FirmDay.ret = [none] ∧
    industry_return crossC5 "Technology" 2 = some 0 ∧
    industry_return crossC5 "Technology" 3 = some 0 ∧
    (car_ind_adj rowsC5 crossC5 1 "Technology" 0).1 = some 4 := by
  refine ⟨?_, ?_, ?_, ?_, ?_⟩ <;> with_unfolding_all rfl

/-- **C5** (corrected): in `car_5d_ind_adj` a missing abnormal return — a
missing firm return or a missing benchmark return, regardless of the other
side — contributes 0 to the sum, and escalation to the insufficient outcome
happens exactly when the 5-day window has fewer than 3 rows (30-day window:
fewer than 15 rows), with no gap-size rule; in `calculate_event_returns`
the CAR sums simply skip missing abnormal returns. -/
theorem missing_fill_unconditional (firmRows cross : List FirmDay) (permno : ℕ) (ind : String)
    (breach : ℤ) :
    ((car_ind_adj firmRows cross permno ind breach).1 =
      if 3 ≤ (car5Rows firmRows permno breach).length then
        some (100 * ((car5Rows firmRows permno breach).filterMap (abnormal_ind cross ind)).sum)
      else none) ∧
    ((car_ind_adj firmRows cross permno ind breach).2 =
      if 15 ≤ (mergedRows firmRows permno breach).length then
        some (100 * ((mergedRows firmRows permno breach).filterMap (abnormal_ind cross ind)).sum)
      else none) ∧
    (∀ (series : List Obs) (t : ℤ) (r : EventReturns),
      calculate_event_returns series t = some r →
      r.car_5d = 100 * nanSum ((slice5 series t).map retDiff) ∧
      r.car_30d = 100 * nanSum ((slice30 series t).map retDiff)) := by
  refine ⟨?_, ?_, ?_⟩
  · simp only [car_ind_adj]
    split_ifs with h
    · rw [fill_zero_sum]
    · rfl
  · simp only [car_ind_adj]
    split_ifs with h
    · rw [fill_zero_sum]
    · rfl
  · intro series t r hr
    obtain ⟨hrec, -, -⟩ := calculate_event_returns_some series t r hr
    constructor
    · have h5 : r.car_5d = nanSum ((slice5 series t).map abnormal_ret) := by rw [hrec]
      rw [h5, nanSum_map_abnormal]
    · have h30 : r.car_30d = nanSum ((slice30 series t).map abnormal_ret) := by rw [hrec]
      rw [h30, nanSum_map_abnormal]

/-- Witness for C5: the skip-sum form of the CAR metrics at the all-zero
11-day series with the event on day 5. -/
theorem missing_fill_unconditional_witness :
    (⟨0, 0, 0, 0⟩ : EventReturns).car_5d = 100 * nanSum ((slice5 exC5w 5).map retDiff) ∧
    (⟨0, 0, 0, 0⟩ : EventReturns).car_30d = 100 * nanSum ((slice30 exC5w 5).map retDiff) :=
  (missing_fill_unconditional rowsC5 crossC5 1 "Technology" 0).2.2 exC5w 5 ⟨0, 0, 0, 0⟩
    (by with_unfolding_all rfl)

/-! ## C3: singleton industry buckets -/

/-- Counterexample to C3 as stated: the "Technology" bucket of `crossC3`
holds the single firm 1, yet the benchmark returns the firm's own daily
return `1/100` (not `missing`), and the industry-adjusted 5-day CAR for
that firm computes to 0 instead of being marked insufficient. -/
theorem singleton_industry_cx :
    industry_return crossC3 "Technology" 0 = some (1 / 100) ∧
    (car_ind_adj crossC3 crossC3 1 "Technology" 0).1 = some 0 := by
  refine ⟨?_, ?_⟩ <;> with_unfolding_all rfl

/-- **C3** (corrected): an `(industry, date)` bucket with no non-missing
member return yields `missing`, but a bucket whose only member return is
the firm's own yields exactly that return; hence for a singleton-industry
firm the abnormal return is 0 on every day its return is present, and the
industry-adjusted 5-day CAR evaluates to 0 — reported as a value, not as
insufficient — whenever the 5-day window has at least 3 rows. -/
theorem singleton_industry_own_return (cross : List FirmDay) (ind : String) (d : ℤ)
    (firmRows : List FirmDay) (permno : ℕ) (breach : ℤ) :
    (bucketRets cross ind d = [] → industry_return cross ind d = none) ∧
    (∀ r : ℚ, bucketRets cross ind d = [r] → industry_return cross ind d = some r) ∧
    (∀ (rq : ℚ) (f : FirmDay), f.ret = some rq → bucketRets cross ind f.date = [rq] →
      abnormal_ind cross ind f = some 0) ∧
    ((∀ f ∈ car5Rows firmRows permno breach, (abnormal_ind cross ind f).getD 0 = 0) →
      3 ≤ (car5Rows firmRows permno breach).length →
      (car_ind_adj firmRows cross permno ind breach).1 = some 0) := by
  refine ⟨?_, ?_, ?_, ?_⟩
  · intro h
    simp [industry_return, h]
  · intro r h
    simp [industry_return, h]
  · intro rq f hf hb
    have hi : industry_return cross ind f.date = some rq := by
      simp [industry_return, hb]
    simp [abnormal_ind, hf, hi]
  · intro hall h3
    simp only [car_ind_adj]
    split_ifs with h
    · refine congrArg some (List.sum_eq_zero ?_)
      intro x hx
      rcases List.mem_map.mp hx with ⟨f, hf, rfl⟩
      rw [hall f hf, zero_mul]

/-- Witness for C3 at the singleton cross-section `crossC3`: the bucket's
benchmark is the lone firm's own return and the 5-day industry-adjusted CAR
is 0. -/
theorem singleton_industry_own_return_witness :
    industry_return crossC3 "Technology" 3 = some (1 / 100) ∧
    (car_ind_adj crossC3 crossC3 1 "Technology" 0).1 = some 0 :=
  ⟨(singleton_industry_own_return crossC3 "Technology" 3 crossC3 1 0).2.1 (1 / 100)
      (by with_unfolding_all rfl),
    (singleton_industry_own_return crossC3 "Technology" 3 crossC3 1 0).2.2.2
      (by with_unfolding_all decide) (by decide)⟩

/-! ## C8: pre-window insufficiency versus substitution -/

/-- Counterexample to C8 as stated: on `exC8p` the aligned event position
is 2, so only 2 observations precede it — fewer than `pre_days = 5` — yet
script 07's extractor does not mark the event insufficient: it substitutes
the earliest available day (`max(0, 2 - 5) = 0`, close 100) and reports a
50% 5-day return measured from it. -/
theorem pre_window_substitution_cx :
    idxNearestLater (exC8p.map PriceObs.date) 2 = 2 ∧
    (get_breach_returns_07 exC8p 2).map StockReturns.has_stock_data = some true ∧
    (get_breach_returns_07 exC8p 2).map StockReturns.return_5d_pct = some (some 50) := by
  refine ⟨by decide, ?_, ?_⟩ <;> with_unfolding_all rfl

/-- **C8** (corrected): the robust extractor (script 09) marks the event
insufficient whenever fewer than 5 observations precede the aligned event
day, and never substitutes the earliest available day — its line-106
fallback is unreachable, so the function coincides with the strict variant
that always uses exactly the 5th-prior close; the earlier script 07 does
substitute (see the counterexample). -/
theorem pre_window_insufficient_no_substitute (hist : List PriceObs) (breachDate : ℤ) :
    ((robustPre hist breachDate).length < 5 →
      get_breach_returns_robust hist breachDate = noStockData) ∧
    get_breach_returns_robust hist breachDate = get_breach_returns_strict hist breachDate ∧
    ((get_breach_returns_robust hist breachDate).has_stock_data = true →
      5 ≤ (robustPre hist breachDate).length) := by
  refine ⟨?_, ?_, ?_⟩
  · intro h5
    simp only [get_breach_returns_robust]
    split_ifs <;> first | rfl | omega
  · simp only [get_breach_returns_robust, get_breach_returns_strict]
    split_ifs <;> first | rfl | omega
  · intro hs
    simp only [get_breach_returns_robust] at hs
    split_ifs at hs <;> first | omega | simp [noStockData] at hs

/-- Witness for C8: on `exC8w` only 2 observations precede the aligned
event day, so the robust extractor returns the all-null record, and it
agrees with the strict no-fallback variant. -/
theorem pre_window_insufficient_no_substitute_witness :
    get_breach_returns_robust exC8w 2 = noStockData ∧
    get_breach_returns_robust exC8w 2 = get_breach_returns_strict exC8w 2 :=
  ⟨(pre_window_insufficient_no_substitute exC8w 2).1 (by decide),
    (pre_window_insufficient_no_substitute exC8w 2).2.1⟩

end Dissertation
